import Mathlib

/-!
Verification of the core of the `inventory-BE` retail inventory backend:
the sale/purchase transaction processors, the pricing and discount
validator, the FIFO aging engine and the bill-number allocator.

Shallow embedding conventions:
* JS `number` money values are modelled as `ℚ`; `Math.round(x*100)/100`
  becomes `round2` (Mathlib `round` rounds halves up, as `Math.round` does).
* Quantities received in request bodies are modelled as `Int` (the source
  coerces with `Number(...)` and rejects non-integers with
  `Number.isInteger`; non-numeric JSON is outside the model, the integer
  range checks are embedded as written).
* Nullable / possibly-absent numeric columns are `Option ℚ`; the source's
  `Number.isFinite` guards on them become `Option` matches.
* Database rows are Lean structures; a store (the transactional snapshot
  visible to one request) is a structure of row lists.  `prisma.$transaction`
  rolls the store back when the callback throws; the `run*` wrappers model
  this by returning the original store on `Except.error`.
* String `.trim()` normalisation of identifiers is omitted (identifiers are
  modelled post-trim); generated ids and wall-clock timestamps are omitted.
-/

/-- Model of `Math.round(x * 100) / 100` from the source (rounding a money
value to cents). -/
def round2 (x : ℚ) : ℚ := (round (x * 100) : ℚ) / 100

/-- Error outcomes of the sale path, one constructor per `throw err(...)`
site in `validateAndCompute` / `createSale` (sale.service). -/
inductive SaleError where
  | itemsEmpty : SaleError
  | paymentsEmpty : SaleError
  | missingSku : SaleError
  | productNotFound : String → SaleError
  | invalidQuantity : String → SaleError
  | invalidSellingPrice : String → SaleError
  | insufficientStock : String → SaleError
  | priceExceedsMrp : String → SaleError
  | discountExceedsLimit : String → SaleError
  | invalidPaymentMode : SaleError
  | invalidPaymentAmount : SaleError
  | paymentMismatch : SaleError
deriving DecidableEq

/-- Constant `PAYMENT_SUM_TOLERANCE = 1` from sale.service line 13 (its
source comment reads "allow 1 cent rounding"). -/
def PAYMENT_SUM_TOLERANCE : ℚ := 1

/-- The pricing / discount validation block of `validateAndCompute`
(sale.service lines 71-89): skip when the variant's `mrp` is null or not
finite; otherwise reject `sellingPrice > mrp`, and when `mrp > 0` reject
`discountPercent > maxDiscountPercent` where
`discountPercent = (mrp - sellingPrice) / mrp * 100`.  The caller passes
`max_discount_percent ?? 0`. -/
def checkDiscountRules (sku : String) (sellingPrice : ℚ) (mrp : Option ℚ)
    (maxDiscountPercent : ℚ) : Except SaleError Unit :=
  match mrp with
  | none => Except.ok ()
  | some m =>
    if m < sellingPrice then Except.error (SaleError.priceExceedsMrp sku)
    else if 0 < m then
      if maxDiscountPercent < (m - sellingPrice) / m * 100 then
        Except.error (SaleError.discountExceedsLimit sku)
      else Except.ok ()
    else Except.ok ()

/-- A FIFO cost layer `{ purchasedAt, quantity, effectiveUnitCost }` as
built in `getInventoryAging` (reports.controller). -/
structure Layer where
  purchasedAt : Int
  quantity : Nat
  effectiveUnitCost : ℚ
deriving DecidableEq

/-- `applyFifo(layers, totalSold)` (reports.controller lines 444-461):
walk the layers keeping a `toConsume` counter, take
`consume = Math.min(qty, toConsume)` from each layer and keep the layer
(with its remaining quantity) only when something remains. -/
def applyFifo : List Layer → Nat → List Layer
  | [], _ => []
  | layer :: rest, toConsume =>
    let consume := min layer.quantity toConsume
    let remainingQty := layer.quantity - consume
    let tail := applyFifo rest (toConsume - consume)
    if 0 < remainingQty then
      { purchasedAt := layer.purchasedAt, quantity := remainingQty,
        effectiveUnitCost := layer.effectiveUnitCost } :: tail
    else tail

/-- Milliseconds per day, the divisor `24 * 60 * 60 * 1000` in
`daysBetween`. -/
def msPerDay : Int := 24 * 60 * 60 * 1000

/-- Model of `setHours(0, 0, 0, 0)`: truncate a millisecond timestamp to
its day boundary (the embedding works in a fixed UTC-like zone). -/
def atMidnight (t : Int) : Int := msPerDay * (t.fdiv msPerDay)

/-- `daysBetween(asOfDate, purchasedAt)` (reports.controller lines
433-439): floor of the difference of the two midnights in days
(`Int.fdiv` is floor division, as `Math.floor` of the quotient). -/
def daysBetween (asOfDate purchasedAt : Int) : Int :=
  (atMidnight asOfDate - atMidnight purchasedAt).fdiv msPerDay

/-- `getAgingBucket(ageDays)` (reports.controller lines 395-400). -/
def getAgingBucket (ageDays : Int) : String :=
  if ageDays ≤ 30 then "0-30"
  else if ageDays ≤ 60 then "31-60"
  else if ageDays ≤ 90 then "61-90"
  else "90+"

/-- `getBucketDiscountPercent(bucket)` (reports.controller lines
403-411). -/
def getBucketDiscountPercent (bucket : String) : ℚ :=
  if bucket = "0-30" then 0
  else if bucket = "31-60" then 5
  else if bucket = "61-90" then 10
  else if bucket = "90+" then 20
  else 0

/-- Result record of `getDiscountSuggestion`. -/
structure Suggestion where
  suggestedDiscountPercent : ℚ
  suggestedPrice : ℚ
  discountCappedByCost : Bool
deriving DecidableEq

/-- `getDiscountSuggestion(bucket, defaultSellingPrice, maxDiscountPercent,
costPrice)` (reports.controller lines 417-431).  `Option.getD 0` models
the `Number.isFinite(x) ? x : 0` guards on the two nullable pricing
columns; `costPrice` is always a finite number at the call site
(`Number(pi.effectiveUnitCost)`), so the `Number.isFinite(costPrice)`
guard is always true. -/
def getDiscountSuggestion (bucket : String) (defaultSellingPrice : Option ℚ)
    (maxDiscountPercent : Option ℚ) (costPrice : ℚ) : Suggestion :=
  let bucketPct := getBucketDiscountPercent bucket
  let maxPct := maxDiscountPercent.getD 0
  let pct := min bucketPct maxPct
  let sellingPrice := (defaultSellingPrice.getD 0)
  let base :=
    if 0 < sellingPrice then round2 (sellingPrice * (1 - pct / 100))
    else costPrice
  if base < costPrice then
    { suggestedDiscountPercent := pct, suggestedPrice := round2 costPrice,
      discountCappedByCost := true }
  else
    { suggestedDiscountPercent := pct, suggestedPrice := base,
      discountCappedByCost := false }

/-- Decimal digits, most significant first, by structural recursion on a
fuel bound (any fuel above the value works, see `toDigitsFuel_congr`). -/
def toDigitsFuel : Nat → Nat → List Nat
  | 0, n => [n]
  | fuel + 1, n => if n < 10 then [n] else toDigitsFuel fuel (n / 10) ++ [n % 10]

/-- Decimal digits of a natural number, most significant first, as produced
by JavaScript `String(seq)` for a non-negative integer. -/
def toDigits (n : Nat) : List Nat := toDigitsFuel n n

/-- Model of `.padStart(4, '0')` on a digit string. -/
def pad4 (ds : List Nat) : List Nat := List.replicate (4 - ds.length) 0 ++ ds

/-- The bill-number suffix string `String(seq).padStart(4, '0')`
(sale.service line 162), as a digit list. -/
def billDigits (n : Nat) : List Nat := pad4 (toDigits n)

/-- Model of `parseInt(numPart, 10)` on an all-digit string. -/
def parseDigits (ds : List Nat) : Nat := ds.foldl (fun acc d => acc * 10 + d) 0

/-- JavaScript string `<` on two all-digit strings (character codes of
digits are ordered as the digits themselves; a strict prefix is smaller).
The database's `orderBy: { billNumber: 'desc' }` uses this order, all
compared bill numbers sharing the same `BILL-YYYYMMDD-` front part. -/
def lexLt : List Nat → List Nat → Bool
  | [], [] => false
  | [], _ :: _ => true
  | _ :: _, [] => false
  | a :: as, b :: bs => if a < b then true else if b < a then false else lexLt as bs

/-- One comparison step of the maximum selection: keep the
lexicographically larger bill string. -/
def maxStep (acc : Option (List Nat)) (s : List Nat) : Option (List Nat) :=
  match acc with
  | none => some s
  | some m => if lexLt m s then some s else some m

/-- The suffix string selected by
`findFirst({ orderBy: { billNumber: 'desc' } })` over the day's bills: the
lexicographically greatest one, `none` when the day has no bills. -/
def maxByLex (bills : List (List Nat)) : Option (List Nat) :=
  bills.foldl maxStep none

/-- The bill-sequence allocation of `createSale` (sale.service lines
150-161): take the lexicographically last bill number of the day, parse
the part after the prefix with `parseInt`, and use its successor; with no
bill yet, start at 1.  (`parseInt` of an all-digit suffix is always a
non-negative finite number, so the `Number.isFinite(n) && n >= 0` guard
is always true on the strings this model ranges over.) -/
def nextSeq (dayBills : List (List Nat)) : Nat :=
  match maxByLex dayBills with
  | none => 1
  | some s => parseDigits s + 1

/-- The day's bill suffixes after `n` sequential sales, each appending the
bill number the allocator picks against the bills already present. -/
def issueBills : Nat → List (List Nat)
  | 0 => []
  | n + 1 => issueBills n ++ [billDigits (nextSeq (issueBills n))]

/-- A `Product` row joined with its `ProductVariant` pricing columns, as
fetched by `validateAndCompute` (`include: { productVariant: true }`).
`quantityInStock` is an `INTEGER` column with no check constraint, hence
`Int`. -/
structure ProductRow where
  sku : String
  quantityInStock : Int
  mrp : Option ℚ
  maxDiscountPercent : Option ℚ
deriving DecidableEq

/-- One entry of the `items` array of a `POST /sales` body. -/
structure SaleItemReq where
  sku : String
  quantity : Int
  sellingPrice : ℚ
deriving DecidableEq

/-- One entry of the `payments` array of a `POST /sales` body. -/
structure PaymentReq where
  mode : String
  provider : Option String
  amount : ℚ
deriving DecidableEq

/-- A `POST /sales` request body. -/
structure SaleReq where
  items : List SaleItemReq
  payments : List PaymentReq
deriving DecidableEq

/-- One element of the `lineTotals` array built by `validateAndCompute`. -/
structure LineTotal where
  sku : String
  quantity : Nat
  unitPrice : ℚ
  lineTotal : ℚ
deriving DecidableEq

/-- A persisted `Payment` row (after normalisation). -/
structure PaymentRow where
  mode : String
  provider : Option String
  amount : ℚ
deriving DecidableEq

/-- A persisted `Sale` row (generated id and `soldAt` timestamp omitted);
`billNumber` keeps only the per-day suffix digits. -/
structure SaleRow where
  billNumber : List Nat
  totalAmount : ℚ
deriving DecidableEq

/-- A persisted `SaleItem` row (the product reference kept by `sku`). -/
structure SaleItemRow where
  sku : String
  quantity : Nat
  unitPrice : ℚ
  lineTotal : ℚ
deriving DecidableEq

/-- The slice of the store a sale transaction touches: the `Product`
table, the current day's bill numbers, and the `Sale` / `SaleItem` /
`Payment` tables. -/
structure Store where
  products : List ProductRow
  dayBills : List (List Nat)
  sales : List SaleRow
  saleItems : List SaleItemRow
  payments : List PaymentRow
deriving DecidableEq

/-- The first SKU-existence pass of `validateAndCompute` (sale.service
lines 41-47): every item must carry a sku that resolves to a product. -/
def checkSkus (products : List ProductRow) : List SaleItemReq → Except SaleError Unit
  | [] => Except.ok ()
  | it :: rest =>
    if it.sku = "" then Except.error SaleError.missingSku
    else
      match products.find? (fun p => p.sku = it.sku) with
      | none => Except.error (SaleError.productNotFound it.sku)
      | some _ => checkSkus products rest

/-- The per-item pass of `validateAndCompute` (sale.service lines 52-100):
range-check quantity and sellingPrice, check stock, run the discount
rules, and build the `lineTotals` rows with
`lineTotal = Math.round(quantity * sellingPrice * 100) / 100`.  Every
item is checked against the same transaction-start product snapshot, as
in the source. -/
def buildLineTotals (products : List ProductRow) :
    List SaleItemReq → Except SaleError (List LineTotal)
  | [] => Except.ok []
  | it :: rest =>
    match products.find? (fun p => p.sku = it.sku) with
    | none => Except.error (SaleError.productNotFound it.sku)
    | some product =>
      if it.quantity < 1 then Except.error (SaleError.invalidQuantity it.sku)
      else if it.sellingPrice < 0 then Except.error (SaleError.invalidSellingPrice it.sku)
      else if product.quantityInStock < it.quantity then
        Except.error (SaleError.insufficientStock it.sku)
      else
        (checkDiscountRules it.sku it.sellingPrice product.mrp
            (product.maxDiscountPercent.getD 0)).bind fun _ =>
          (buildLineTotals products rest).map fun tail =>
            { sku := it.sku, quantity := it.quantity.toNat,
              unitPrice := it.sellingPrice,
              lineTotal := round2 (it.quantity.toNat * it.sellingPrice) } :: tail

/-- The payment-normalisation loop of `validateAndCompute` (sale.service
lines 106-117). -/
def normalizePayments : List PaymentReq → Except SaleError (List PaymentRow)
  | [] => Except.ok []
  | p :: rest =>
    if p.mode = "" then Except.error SaleError.invalidPaymentMode
    else if p.amount < 0 then Except.error SaleError.invalidPaymentAmount
    else
      (normalizePayments rest).map fun tail =>
        { mode := p.mode, provider := p.provider, amount := p.amount } :: tail

/-- `validateAndCompute(tx, items, payments)` (sale.service lines 25-126):
both arrays non-empty, SKUs resolved, line totals and `totalAmount`
computed, payments normalised, and the payment sum checked against
`totalAmount` with `PAYMENT_SUM_TOLERANCE`. -/
def validateAndCompute (products : List ProductRow) (items : List SaleItemReq)
    (payments : List PaymentReq) :
    Except SaleError (List LineTotal × List PaymentRow × ℚ) :=
  if items = [] then Except.error SaleError.itemsEmpty
  else if payments = [] then Except.error SaleError.paymentsEmpty
  else
    (checkSkus products items).bind fun _ =>
      (buildLineTotals products items).bind fun lineTotals =>
        let totalAmount := round2 ((lineTotals.map LineTotal.lineTotal).sum)
        (normalizePayments payments).bind fun normalizedPayments =>
          let paymentSum := round2 ((normalizedPayments.map PaymentRow.amount).sum)
          if PAYMENT_SUM_TOLERANCE < |paymentSum - totalAmount| then
            Except.error SaleError.paymentMismatch
          else Except.ok (lineTotals, normalizedPayments, totalAmount)

/-- Stock decrement `update({ where: { id }, data: { quantityInStock:
{ decrement: quantity } } })` for the product carrying a sku (skus are
unique, so keying by sku models keying by id). -/
def decrementStock (products : List ProductRow) (sku : String) (q : Nat) :
    List ProductRow :=
  products.map fun p =>
    if p.sku = sku then { p with quantityInStock := p.quantityInStock - q } else p

/-- Result of a successful sale (`saleId` and `soldAt` omitted). -/
structure SaleResult where
  billNumber : List Nat
  totalAmount : ℚ
deriving DecidableEq

/-- The transaction body of `createSale(payload)` (sale.service lines
133-213): validate and compute, allocate the next bill number for the
day, insert the `Sale`, the `SaleItem`s, decrement each line's product
stock, and insert the `Payment`s. -/
def createSale (s : Store) (req : SaleReq) : Except SaleError (Store × SaleResult) :=
  (validateAndCompute s.products req.items req.payments).bind
    fun (out : List LineTotal × List PaymentRow × ℚ) =>
      let lineTotals := out.1
      let normalizedPayments := out.2.1
      let totalAmount := out.2.2
      let billNumber := billDigits (nextSeq s.dayBills)
      let products :=
        lineTotals.foldl (fun ps r => decrementStock ps r.sku r.quantity) s.products
      Except.ok
        ({ products := products,
           dayBills := s.dayBills ++ [billNumber],
           sales := s.sales ++ [{ billNumber := billNumber, totalAmount := totalAmount }],
           saleItems := s.saleItems ++ lineTotals.map (fun r =>
             { sku := r.sku, quantity := r.quantity, unitPrice := r.unitPrice,
               lineTotal := r.lineTotal }),
           payments := s.payments ++ normalizedPayments },
         { billNumber := billNumber, totalAmount := totalAmount })

/-- `prisma.$transaction` around the sale body: a throw anywhere inside
rolls every mutation back, so the store after a failed call is the store
before it. -/
def runCreateSale (s : Store) (req : SaleReq) : Store :=
  match createSale s req with
  | Except.error _ => s
  | Except.ok (s1, _) => s1

/-- Error outcomes of the purchase path, one constructor per
`throw err(...)` site in `createPurchase` (purchase.service). -/
inductive PurchaseError where
  | supplierIdRequired : PurchaseError
  | itemsEmpty : PurchaseError
  | invalidExtraCharges : PurchaseError
  | missingVariantId : PurchaseError
  | invalidQuantity : PurchaseError
  | invalidUnitCost : PurchaseError
  | totalQtyNotPositive : PurchaseError
  | supplierNotFound : PurchaseError
  | variantNotFound : String → PurchaseError
  | noMatchingProduct : String → PurchaseError
deriving DecidableEq

/-- One entry of the `items` array of a `POST /purchases` body. -/
structure PurchaseItemReq where
  productVariantId : String
  quantity : Int
  unitCost : ℚ
deriving DecidableEq

/-- A `POST /purchases` request body (`purchasedAt` is modelled as an
always-valid millisecond timestamp; the `new Date(...)` NaN check never
fires on it). -/
structure PurchaseReq where
  supplierId : String
  purchasedAt : Int
  invoiceNo : Option String
  notes : Option String
  extraCharges : ℚ
  items : List PurchaseItemReq
deriving DecidableEq

/-- The columns of a `Product` row used by the purchase path's
`updateMany` matching (`productVariantId` + `supplierId`). -/
structure ProductMatch where
  productVariantId : String
  supplierId : String
  quantityInStock : Int
deriving DecidableEq

/-- A persisted `Purchase` row (generated id omitted; the source stores
`extraCharges: extraNum || null`, so a zero becomes `none`). -/
structure PurchaseRow where
  supplierId : String
  purchasedAt : Int
  invoiceNo : Option String
  notes : Option String
  extraCharges : Option ℚ
deriving DecidableEq

/-- A persisted `PurchaseItem` row (generated ids omitted). -/
structure PurchaseItemRow where
  productVariantId : String
  quantity : Nat
  unitCost : ℚ
  effectiveUnitCost : ℚ
deriving DecidableEq

/-- The slice of the store a purchase transaction touches. -/
structure PurchStore where
  suppliers : List String
  variantIds : List String
  products : List ProductMatch
  purchases : List PurchaseRow
  purchaseItems : List PurchaseItemRow
deriving DecidableEq

/-- The per-item input validation loop of `createPurchase`
(purchase.service lines 37-44). -/
def checkPurchaseItems : List PurchaseItemReq → Except PurchaseError Unit
  | [] => Except.ok ()
  | it :: rest =>
    if it.productVariantId = "" then Except.error PurchaseError.missingVariantId
    else if it.quantity < 1 then Except.error PurchaseError.invalidQuantity
    else if it.unitCost < 0 then Except.error PurchaseError.invalidUnitCost
    else checkPurchaseItems rest

/-- The first variant id of the deduplicated list that is missing from the
`ProductVariant` table (purchase.service lines 56-63). -/
def firstMissingVariant (variantIds : List String) : List String → Option String
  | [] => none
  | id :: rest =>
    if id ∈ variantIds then firstMissingVariant variantIds rest else some id

/-- The per-item cost computation of `createPurchase` (purchase.service
lines 81-99): `allocatedCharge = (quantity / totalQty) * extraCharges`
(0 when `totalQty` is 0), then `effectiveUnitCost = (unitCost * quantity
+ allocatedCharge) / quantity` (plain `unitCost` when `quantity` is 0),
rounded to cents. -/
def mkPurchaseItem (totalQty : Nat) (extraCharges : ℚ) (it : PurchaseItemReq) :
    PurchaseItemRow :=
  let q : Nat := it.quantity.toNat
  let allocatedCharge := if 0 < totalQty then ((q : ℚ) / totalQty) * extraCharges else 0
  let effectiveUnitCost :=
    if 0 < q then (it.unitCost * q + allocatedCharge) / q else it.unitCost
  { productVariantId := it.productVariantId, quantity := q,
    unitCost := it.unitCost, effectiveUnitCost := round2 effectiveUnitCost }

/-- `updateMany({ where: { productVariantId, supplierId }, data:
{ quantityInStock: { increment: quantity } } })`, returning the updated
product table and the matched-row count. -/
def incrementStock (products : List ProductMatch) (vid sid : String) (q : Nat) :
    List ProductMatch × Nat :=
  (products.map fun p =>
      if p.productVariantId = vid ∧ p.supplierId = sid then
        { p with quantityInStock := p.quantityInStock + q }
      else p,
   (products.filter fun p => p.productVariantId = vid ∧ p.supplierId = sid).length)

/-- The item loop inside the purchase transaction (purchase.service lines
81-118): persist each `PurchaseItem`, increment matching product stock,
and throw when no product row matched. -/
def purchaseLoop (totalQty : Nat) (extraCharges : ℚ) (sid : String) :
    List PurchaseItemReq → PurchStore → Except PurchaseError PurchStore
  | [], s => Except.ok s
  | it :: rest, s =>
    let row := mkPurchaseItem totalQty extraCharges it
    let upd := incrementStock s.products it.productVariantId sid row.quantity
    if upd.2 = 0 then Except.error (PurchaseError.noMatchingProduct it.productVariantId)
    else
      purchaseLoop totalQty extraCharges sid rest
        { s with purchaseItems := s.purchaseItems ++ [row], products := upd.1 }

/-- `createPurchase(payload)` (purchase.service lines 14-122): input
validation outside the transaction, then supplier / variant existence,
the `Purchase` insert and the item loop inside it. -/
def createPurchase (s : PurchStore) (req : PurchaseReq) :
    Except PurchaseError PurchStore :=
  if req.supplierId = "" then Except.error PurchaseError.supplierIdRequired
  else if req.items = [] then Except.error PurchaseError.itemsEmpty
  else if req.extraCharges < 0 then Except.error PurchaseError.invalidExtraCharges
  else
    (checkPurchaseItems req.items).bind fun _ =>
      let totalQty : Int := (req.items.map PurchaseItemReq.quantity).sum
      if totalQty ≤ 0 then Except.error PurchaseError.totalQtyNotPositive
      else if req.supplierId ∉ s.suppliers then Except.error PurchaseError.supplierNotFound
      else
        match firstMissingVariant s.variantIds
            ((req.items.map PurchaseItemReq.productVariantId).dedup) with
        | some vid => Except.error (PurchaseError.variantNotFound vid)
        | none =>
          let purchase : PurchaseRow :=
            { supplierId := req.supplierId, purchasedAt := req.purchasedAt,
              invoiceNo := req.invoiceNo, notes := req.notes,
              extraCharges := if req.extraCharges = 0 then none else some req.extraCharges }
          purchaseLoop totalQty.toNat req.extraCharges req.supplierId req.items
            { s with purchases := s.purchases ++ [purchase] }

/-- `prisma.$transaction` around the purchase body: a throw anywhere
inside rolls every mutation back. -/
def runCreatePurchase (s : PurchStore) (req : PurchaseReq) : PurchStore :=
  match createPurchase s req with
  | Except.error _ => s
  | Except.ok s1 => s1

deriving instance DecidableEq for Except

/-- Store for the duplicate-SKU sale scenario: one product with 10 units
in stock, `mrp = 10`, `maxDiscountPercent = 0`. -/
def dupStore : Store :=
  { products := [{ sku := "A", quantityInStock := 10, mrp := some 10,
                   maxDiscountPercent := some 0 }],
    dayBills := [], sales := [], saleItems := [], payments := [] }

/-- Sale request naming the same SKU twice, 6 units each at price 10,
fully paid: 12 units against a stock of 10. -/
def dupReq : SaleReq :=
  { items := [{ sku := "A", quantity := 6, sellingPrice := 10 },
              { sku := "A", quantity := 6, sellingPrice := 10 }],
    payments := [{ mode := "CASH", provider := none, amount := 120 }] }

/-- Product, item and payment lists for the payment-tolerance scenario:
a 10.00 sale paid with 10.50. -/
def tolStore : Store :=
  { products := [{ sku := "A", quantityInStock := 10, mrp := none,
                   maxDiscountPercent := none }],
    dayBills := [], sales := [], saleItems := [], payments := [] }

/-- Sale request for the payment-tolerance scenario. -/
def tolReq : SaleReq :=
  { items := [{ sku := "A", quantity := 1, sellingPrice := 10 }],
    payments := [{ mode := "CASH", provider := none, amount := 21 / 2 }] }

/-- The empty purchase store. -/
def emptyPurchStore : PurchStore :=
  { suppliers := [], variantIds := [], products := [], purchases := [],
    purchaseItems := [] }

/-- Example store for the extra-charge allocation scenario. -/
def exPurchStore : PurchStore :=
  { suppliers := ["S"], variantIds := ["V1", "V2"],
    products := [{ productVariantId := "V1", supplierId := "S", quantityInStock := 0 },
                 { productVariantId := "V2", supplierId := "S", quantityInStock := 0 }],
    purchases := [], purchaseItems := [] }

/-- Example request: `extraCharges = 100` over items
`[{qty 3, unitCost 10}, {qty 2, unitCost 20}]`. -/
def exPurchReq : PurchaseReq :=
  { supplierId := "S", purchasedAt := 0, invoiceNo := none, notes := none,
    extraCharges := 100,
    items := [{ productVariantId := "V1", quantity := 3, unitCost := 10 },
              { productVariantId := "V2", quantity := 2, unitCost := 20 }] }

theorem applyFifo_nil_toConsume (ls : List Layer) (h : ∀ x ∈ ls, 0 < x.quantity) :
    applyFifo ls 0 = ls := by
  induction ls with
  | nil => rfl
  | cons l rest ih =>
    have hl : 0 < l.quantity := h l (by simp)
    simp only [applyFifo, Nat.min_zero, Nat.sub_zero, if_pos hl, Nat.zero_sub]
    rw [ih fun x hx => h x (List.mem_cons_of_mem l hx)]

/-- C3: the FIFO consumption function walks layers oldest-first
subtracting from a to-consume counter: a layer whose quantity is at most
the remaining counter is dropped (the counter shrinks by that quantity),
a partially consumed layer contributes `quantity - consumed` with its
original purchase date and cost (and exhausts the counter), layers
reached after the counter hits zero pass through unchanged, and the
layers `[(t1,10,cost 5),(t2,5,cost 6)]` with `totalSold = 12` yield
exactly `[(t2,3,cost 6)]`. -/
theorem applyFifo_walk (l : Layer) (ls : List Layer) (n : Nat) (t1 t2 : Int) :
    (l.quantity ≤ n → applyFifo (l :: ls) n = applyFifo ls (n - l.quantity)) ∧
    (n < l.quantity →
      applyFifo (l :: ls) n =
        { purchasedAt := l.purchasedAt, quantity := l.quantity - n,
          effectiveUnitCost := l.effectiveUnitCost } :: applyFifo ls 0) ∧
    ((∀ x ∈ ls, 0 < x.quantity) → applyFifo ls 0 = ls) ∧
    applyFifo [Layer.mk t1 10 5, Layer.mk t2 5 6] 12 = [Layer.mk t2 3 6] := by
  refine ⟨?_, ?_, applyFifo_nil_toConsume ls, ?_⟩
  · intro h
    simp only [applyFifo, Nat.min_eq_left h, Nat.sub_self, lt_irrefl, if_false]
  · intro h
    have hmin : min l.quantity n = n := Nat.min_eq_right (Nat.le_of_lt h)
    simp only [applyFifo, hmin, Nat.sub_self, if_pos (Nat.sub_pos_of_lt h)]
  · show applyFifo [Layer.mk t1 10 5, Layer.mk t2 5 6] 12 = [Layer.mk t2 3 6]
    simp only [applyFifo]
    norm_num

theorem applyFifo_walk_witness :
    applyFifo [Layer.mk 1 10 5, Layer.mk 2 5 6] 12 = applyFifo [Layer.mk 2 5 6] 2 ∧
    applyFifo [Layer.mk 1 10 5, Layer.mk 2 5 6] 12 = [Layer.mk 2 3 6] :=
  ⟨(applyFifo_walk (Layer.mk 1 10 5) [Layer.mk 2 5 6] 12 1 2).1 (by decide),
   (applyFifo_walk (Layer.mk 1 10 5) [] 12 1 2).2.2.2⟩

theorem applyFifo_sum_quantity (ls : List Layer) : ∀ n : Nat,
    ((applyFifo ls n).map Layer.quantity).sum = (ls.map Layer.quantity).sum - n := by
  induction ls with
  | nil => intro n; simp [applyFifo]
  | cons l rest ih =>
    intro n
    simp only [applyFifo, List.map_cons, List.sum_cons]
    split
    · simp only [List.map_cons, List.sum_cons, ih]
      omega
    · rename_i hne
      simp only [ih]
      omega

/-- C10: FIFO consumption conserves stock: the remaining quantities sum
to `max 0 (Σ original quantities - totalSold)`, and the output layers are
matched, in order, by a sublist of the input layers with purchase date
and effective unit cost unchanged and a positive quantity no greater than
the original one. -/
theorem applyFifo_conservation (ls : List Layer) (n : Nat)
    (hpos : ∀ x ∈ ls, 0 < x.quantity) :
    (((applyFifo ls n).map Layer.quantity).sum : ℤ) =
      max 0 (((ls.map Layer.quantity).sum : ℤ) - (n : ℤ)) ∧
    ∃ orig, List.Sublist orig ls ∧
      List.Forall₂ (fun out old =>
          out.purchasedAt = old.purchasedAt ∧
          out.effectiveUnitCost = old.effectiveUnitCost ∧
          0 < out.quantity ∧ out.quantity ≤ old.quantity)
        (applyFifo ls n) orig := by
  constructor
  · have h := applyFifo_sum_quantity ls n
    omega
  · clear hpos
    induction ls generalizing n with
    | nil => exact ⟨[], List.Sublist.refl [], by simp [applyFifo]⟩
    | cons l rest ih =>
      obtain ⟨orig, hsub, hrel⟩ := ih (n - min l.quantity n)
      by_cases h : 0 < l.quantity - min l.quantity n
      · refine ⟨l :: orig, List.Sublist.cons₂ l hsub, ?_⟩
        simp only [applyFifo, if_pos h]
        exact List.Forall₂.cons ⟨rfl, rfl, h, Nat.sub_le _ _⟩ hrel
      · refine ⟨orig, List.Sublist.cons l hsub, ?_⟩
        simp only [applyFifo, if_neg h]
        exact hrel

theorem applyFifo_conservation_witness :
    (((applyFifo [Layer.mk 1 10 5, Layer.mk 2 5 6] 12).map Layer.quantity).sum : ℤ) =
      max 0 ((([Layer.mk 1 10 5, Layer.mk 2 5 6].map Layer.quantity).sum : ℤ) - (12 : ℤ)) :=
  (applyFifo_conservation [Layer.mk 1 10 5, Layer.mk 2 5 6] 12 (by decide)).1

/-- C8: `daysBetween` is the floor of the midnight-to-midnight difference
in days, and the bucket assignment maps `ageDays ≤ 30` to `0-30`, `31-60`
to `31-60`, `61-90` to `61-90` and everything above 90 to `90+`, with
base discounts 0, 5, 10 and 20 percent respectively. -/
theorem aging_bucket_spec (asOfDate purchasedAt d : Int) :
    daysBetween asOfDate purchasedAt =
      (atMidnight asOfDate - atMidnight purchasedAt).fdiv msPerDay ∧
    (d ≤ 30 → getAgingBucket d = "0-30") ∧
    (31 ≤ d ∧ d ≤ 60 → getAgingBucket d = "31-60") ∧
    (61 ≤ d ∧ d ≤ 90 → getAgingBucket d = "61-90") ∧
    (91 ≤ d → getAgingBucket d = "90+") ∧
    getBucketDiscountPercent "0-30" = 0 ∧
    getBucketDiscountPercent "31-60" = 5 ∧
    getBucketDiscountPercent "61-90" = 10 ∧
    getBucketDiscountPercent "90+" = 20 := by
  refine ⟨rfl, ?_, ?_, ?_, ?_, by decide, by decide, by decide, by decide⟩
  · intro h
    simp only [getAgingBucket, if_pos h]
  · intro h
    simp only [getAgingBucket]
    rw [if_neg (by omega), if_pos (by omega)]
  · intro h
    simp only [getAgingBucket]
    rw [if_neg (by omega), if_neg (by omega), if_pos (by omega)]
  · intro h
    simp only [getAgingBucket]
    rw [if_neg (by omega), if_neg (by omega), if_neg (by omega)]

theorem aging_bucket_spec_witness :
    getAgingBucket 45 = "31-60" ∧ getAgingBucket 91 = "90+" :=
  ⟨(aging_bucket_spec 0 0 45).2.2.1 ⟨by decide, by decide⟩,
   (aging_bucket_spec 0 0 91).2.2.2.2.1 (by decide)⟩

/-- C4: the pricing/discount validation fails with `PriceExceedsMrp`
exactly when `sellingPrice > mrp`, and when `mrp > 0` it fails with
`DiscountExceedsLimit` exactly when
`(mrp - sellingPrice) / mrp * 100 > maxDiscountPercent` (and the price
check did not already fail); it is a pure function, so it has no side
effects. -/
theorem pricing_validator_spec (sku : String) (sellingPrice mrp maxDiscountPercent : ℚ) :
    (checkDiscountRules sku sellingPrice (some mrp) maxDiscountPercent =
        Except.error (SaleError.priceExceedsMrp sku) ↔ mrp < sellingPrice) ∧
    (0 < mrp →
      (checkDiscountRules sku sellingPrice (some mrp) maxDiscountPercent =
          Except.error (SaleError.discountExceedsLimit sku) ↔
        sellingPrice ≤ mrp ∧
          maxDiscountPercent < (mrp - sellingPrice) / mrp * 100)) := by
  constructor
  · dsimp only [checkDiscountRules]
    split_ifs with h1 h2 h3
    · exact iff_of_true rfl h1
    · exact iff_of_false (by simp) h1
    · exact iff_of_false (by simp) h1
    · exact iff_of_false (by simp) h1
  · intro hm
    dsimp only [checkDiscountRules]
    split_ifs with h1 h2
    · exact iff_of_false (by simp) (fun hc => absurd h1 (not_lt.mpr hc.1))
    · exact iff_of_true rfl ⟨not_lt.mp h1, h2⟩
    · exact iff_of_false (by simp) (fun hc => h2 hc.2)

theorem pricing_validator_spec_witness :
    checkDiscountRules "SKU1" 8 (some 10) 10 =
      Except.error (SaleError.discountExceedsLimit "SKU1") :=
  ((pricing_validator_spec "SKU1" 8 10 10).2 (by norm_num)).mpr
    ⟨by norm_num, by norm_num⟩

/-- C7: the discount suggestion returns
`suggestedDiscountPercent = min(bucketDiscount, maxDiscountPercent)`, a
suggested price equal to the naive discounted price (`defaultSellingPrice
× (1 - pct/100)` rounded to cents, or the layer's cost when
`defaultSellingPrice` is not a positive finite number) clamped up to the
layer's `effectiveUnitCost` (2-decimal, as stored), with
`discountCappedByCost` set exactly when the clamp fired; the example
`mrp=100, maxDiscountPercent=50, defaultSellingPrice=90` with a `90+`
layer of cost 95 yields price 95 and `discountCappedByCost = true`. -/
theorem discount_suggestion_spec (bucket : String) (dsp mdp : Option ℚ) (cost : ℚ)
    (hcost : round2 cost = cost) :
    (getDiscountSuggestion bucket dsp mdp cost).suggestedDiscountPercent =
      min (getBucketDiscountPercent bucket) (mdp.getD 0) ∧
    (getDiscountSuggestion bucket dsp mdp cost).suggestedPrice =
      max (if 0 < dsp.getD 0 then
          round2 (dsp.getD 0 *
            (1 - min (getBucketDiscountPercent bucket) (mdp.getD 0) / 100))
        else cost) cost ∧
    ((getDiscountSuggestion bucket dsp mdp cost).discountCappedByCost = true ↔
      (if 0 < dsp.getD 0 then
          round2 (dsp.getD 0 *
            (1 - min (getBucketDiscountPercent bucket) (mdp.getD 0) / 100))
        else cost) < cost) ∧
    getDiscountSuggestion "90+" (some 90) (some 50) 95 =
      { suggestedDiscountPercent := 20, suggestedPrice := 95,
        discountCappedByCost := true } := by
  refine ⟨?_, ?_, ?_, by with_unfolding_all decide⟩
  · dsimp only [getDiscountSuggestion]
    generalize (if 0 < dsp.getD 0 then
        round2 (dsp.getD 0 *
          (1 - min (getBucketDiscountPercent bucket) (mdp.getD 0) / 100))
      else cost) = b
    split <;> rfl
  · dsimp only [getDiscountSuggestion]
    generalize (if 0 < dsp.getD 0 then
        round2 (dsp.getD 0 *
          (1 - min (getBucketDiscountPercent bucket) (mdp.getD 0) / 100))
      else cost) = b
    split
    · rename_i hb
      show round2 cost = max b cost
      rw [hcost]
      exact (max_eq_right (le_of_lt hb)).symm
    · rename_i hb
      exact (max_eq_left (not_lt.mp hb)).symm
  · dsimp only [getDiscountSuggestion]
    generalize (if 0 < dsp.getD 0 then
        round2 (dsp.getD 0 *
          (1 - min (getBucketDiscountPercent bucket) (mdp.getD 0) / 100))
      else cost) = b
    split
    · rename_i hb
      exact iff_of_true rfl hb
    · rename_i hb
      exact iff_of_false (by simp) hb

theorem discount_suggestion_spec_witness :
    getDiscountSuggestion "90+" (some 90) (some 50) 95 =
      { suggestedDiscountPercent := 20, suggestedPrice := 95,
        discountCappedByCost := true } :=
  (discount_suggestion_spec "90+" (some 90) (some 50) 95
    (by with_unfolding_all decide)).2.2.2

/-- C1 (violated by the code): a sale naming the same SKU twice, whose
combined quantity (12) exceeds the stock (10), passes every check (each
item is compared to the same unmodified snapshot), is persisted, and
leaves `quantityInStock = -2`: the non-negativity invariant fails and no
`InsufficientStock` rejection happens. -/
theorem duplicate_sku_negative_stock_bug :
    (createSale dupStore dupReq).isOk = true ∧
    (runCreateSale dupStore dupReq).products.map ProductRow.quantityInStock = [-2] := by
  with_unfolding_all decide

/-- C2 (violated by the code): `PAYMENT_SUM_TOLERANCE` is 1 whole
currency unit, not one cent, so a sale with `totalAmount = 10` and
`paymentSum = 10.50` — a 0.50 discrepancy, far above the claimed 0.01
tolerance — is accepted instead of failing with `PaymentMismatch`. -/
theorem payment_tolerance_bug :
    validateAndCompute tolStore.products tolReq.items tolReq.payments =
      Except.ok ([{ sku := "A", quantity := 1, unitPrice := 10, lineTotal := 10 }],
        [{ mode := "CASH", provider := none, amount := 21 / 2 }], 10) ∧
    (1 : ℚ) / 100 <
      |round2 ((tolReq.payments.map PaymentReq.amount).sum) - 10| ∧
    PAYMENT_SUM_TOLERANCE = 1 := by
  with_unfolding_all decide

/-- C9: a sale or purchase rejected by any validation leaves the store
unchanged: inside the embedded transaction bodies every validation
precedes the corresponding mutation, and the transaction wrapper rolls
back all mutations on any failure, so a failed request persists no
partial stock change, sale record or purchase record. -/
theorem rejected_request_unchanged_store :
    (∀ (s : Store) (req : SaleReq) (e : SaleError),
      createSale s req = Except.error e → runCreateSale s req = s) ∧
    (∀ (s : PurchStore) (req : PurchaseReq) (e : PurchaseError),
      createPurchase s req = Except.error e → runCreatePurchase s req = s) := by
  constructor
  · intro s req e h
    unfold runCreateSale
    rw [h]
  · intro s req e h
    unfold runCreatePurchase
    rw [h]

theorem rejected_request_unchanged_store_witness :
    runCreateSale dupStore { items := [], payments := [] } = dupStore ∧
    runCreatePurchase emptyPurchStore
      { supplierId := "", purchasedAt := 0, invoiceNo := none, notes := none,
        extraCharges := 0, items := [] } = emptyPurchStore :=
  ⟨rejected_request_unchanged_store.1 dupStore { items := [], payments := [] }
      SaleError.itemsEmpty (by with_unfolding_all decide),
   rejected_request_unchanged_store.2 emptyPurchStore
      { supplierId := "", purchasedAt := 0, invoiceNo := none, notes := none,
        extraCharges := 0, items := [] }
      PurchaseError.supplierIdRequired (by with_unfolding_all decide)⟩

theorem purchaseLoop_items (totalQty : Nat) (extraCharges : ℚ) (sid : String) :
    ∀ (items : List PurchaseItemReq) (s s1 : PurchStore),
      purchaseLoop totalQty extraCharges sid items s = Except.ok s1 →
      s1.purchaseItems =
        s.purchaseItems ++ items.map (mkPurchaseItem totalQty extraCharges) := by
  intro items
  induction items with
  | nil =>
    intro s s1 h
    simp only [purchaseLoop] at h
    cases h
    simp
  | cons it rest ih =>
    intro s s1 h
    simp only [purchaseLoop] at h
    split at h
    · exact absurd h (by simp)
    · have := ih _ _ h
      simp only [this]
      simp [List.append_assoc]

/-- C6: every `PurchaseItem` persisted by a successful purchase carries
`effectiveUnitCost = round2((unitCost × q + (q / totalQty) × extraCharges) / q)`
with `totalQty` the sum of the request's quantities; in particular
`extraCharges = 100` over `[{qty 3, cost 10}, {qty 2, cost 20}]` allocates
60 and 40 giving effective unit costs 30 and 40. -/
theorem purchase_cost_allocation :
    (∀ (s : PurchStore) (req : PurchaseReq) (s1 : PurchStore),
      createPurchase s req = Except.ok s1 →
      s1.purchaseItems = s.purchaseItems ++ req.items.map
        (mkPurchaseItem ((req.items.map PurchaseItemReq.quantity).sum).toNat
          req.extraCharges)) ∧
    (∀ (tq : Nat) (extra : ℚ) (it : PurchaseItemReq), 0 < tq → 0 < it.quantity →
      (mkPurchaseItem tq extra it).effectiveUnitCost =
        round2 ((it.unitCost * (it.quantity.toNat : ℚ) +
          ((it.quantity.toNat : ℚ) / (tq : ℚ)) * extra) / (it.quantity.toNat : ℚ))) ∧
    (createPurchase exPurchStore exPurchReq).map PurchStore.purchaseItems =
      Except.ok
        [{ productVariantId := "V1", quantity := 3, unitCost := 10,
           effectiveUnitCost := 30 },
         { productVariantId := "V2", quantity := 2, unitCost := 20,
           effectiveUnitCost := 40 }] := by
  refine ⟨?_, ?_, by with_unfolding_all decide⟩
  · intro s req s1 h
    unfold createPurchase at h
    by_cases h1 : req.supplierId = ""
    · rw [if_pos h1] at h
      exact absurd h (by simp)
    rw [if_neg h1] at h
    by_cases h2 : req.items = []
    · rw [if_pos h2] at h
      exact absurd h (by simp)
    rw [if_neg h2] at h
    by_cases h3 : req.extraCharges < 0
    · rw [if_pos h3] at h
      exact absurd h (by simp)
    rw [if_neg h3] at h
    match hchk : checkPurchaseItems req.items with
    | Except.error e =>
      rw [hchk] at h
      exact absurd h (by simp [Except.bind])
    | Except.ok u =>
      cases u
      rw [hchk] at h
      simp only [Except.bind] at h
      by_cases h4 : (req.items.map PurchaseItemReq.quantity).sum ≤ 0
      · rw [if_pos h4] at h
        exact absurd h (by simp)
      rw [if_neg h4] at h
      by_cases h5 : req.supplierId ∉ s.suppliers
      · rw [if_pos h5] at h
        exact absurd h (by simp)
      rw [if_neg h5] at h
      match hv : firstMissingVariant s.variantIds
          ((req.items.map PurchaseItemReq.productVariantId).dedup) with
      | some vid =>
        rw [hv] at h
        exact absurd h (by simp)
      | none =>
        rw [hv] at h
        dsimp only at h
        have hres := purchaseLoop_items _ _ _ _ _ _ h
        exact hres
  · intro tq extra it htq hq
    have hq2 : 0 < it.quantity.toNat := by omega
    simp only [mkPurchaseItem, if_pos htq, if_pos hq2]

theorem toDigitsFuel_congr : ∀ f1 : Nat, ∀ f2 n : Nat, n ≤ f1 → n ≤ f2 →
    toDigitsFuel f1 n = toDigitsFuel f2 n := by
  intro f1
  induction f1 using Nat.strong_induction_on with
  | _ f1 ih =>
    intro f2 n h1 h2
    match f1, f2 with
    | 0, f2 =>
      interval_cases n
      cases f2 <;> simp [toDigitsFuel]
    | f1 + 1, 0 =>
      interval_cases n
      simp [toDigitsFuel]
    | f1 + 1, f2 + 1 =>
      by_cases hn : n < 10
      · simp [toDigitsFuel, hn]
      · have hd : n / 10 ≤ f1 := by omega
        have hd2 : n / 10 ≤ f2 := by omega
        simp only [toDigitsFuel, if_neg hn]
        rw [ih f1 (by omega) f2 (n / 10) hd hd2]

theorem toDigitsFuel_eq : ∀ fuel n : Nat, n ≤ fuel →
    toDigitsFuel fuel n =
      if n < 10 then [n] else toDigitsFuel (n / 10) (n / 10) ++ [n % 10] := by
  intro fuel
  cases fuel with
  | zero =>
    intro n hn
    interval_cases n
    simp [toDigitsFuel]
  | succ fuel =>
    intro n hn
    simp only [toDigitsFuel]
    by_cases h : n < 10
    · simp [h]
    · simp only [if_neg h]
      rw [toDigitsFuel_congr fuel (n / 10) (n / 10) (by omega) le_rfl]

/-- Recursion equation for `toDigits`: peel off the last decimal digit. -/
theorem toDigits_eq (n : Nat) :
    toDigits n = if n < 10 then [n] else toDigits (n / 10) ++ [n % 10] :=
  toDigitsFuel_eq n n le_rfl

theorem foldl_digits_from (ds : List Nat) : ∀ a : Nat,
    ds.foldl (fun acc d => acc * 10 + d) a =
      a * 10 ^ ds.length + ds.foldl (fun acc d => acc * 10 + d) 0 := by
  induction ds with
  | nil => intro a; simp
  | cons d ds ih =>
    intro a
    simp only [List.foldl_cons, List.length_cons]
    rw [ih (a * 10 + d), ih (0 * 10 + d)]
    ring

theorem parseDigits_cons (d : Nat) (ds : List Nat) :
    parseDigits (d :: ds) = d * 10 ^ ds.length + parseDigits ds := by
  unfold parseDigits
  simp only [List.foldl_cons]
  rw [foldl_digits_from ds (0 * 10 + d)]
  norm_num

theorem parseDigits_append_singleton (ds : List Nat) (d : Nat) :
    parseDigits (ds ++ [d]) = parseDigits ds * 10 + d := by
  unfold parseDigits
  rw [List.foldl_append]
  rfl

theorem parseDigits_toDigits (n : Nat) : parseDigits (toDigits n) = n := by
  induction n using Nat.strong_induction_on with
  | _ n ih =>
    rw [toDigits_eq]
    by_cases h : n < 10
    · rw [if_pos h]
      unfold parseDigits
      simp
    · rw [if_neg h]
      rw [parseDigits_append_singleton,
        ih (n / 10) (Nat.div_lt_self (by omega) (by omega))]
      omega

theorem parseDigits_replicate_zero (k : Nat) (ds : List Nat) :
    parseDigits (List.replicate k 0 ++ ds) = parseDigits ds := by
  induction k with
  | zero => simp
  | succ k ih =>
    rw [List.replicate_succ]
    unfold parseDigits at ih ⊢
    simp only [List.cons_append, List.foldl_cons]
    simpa using ih

theorem parseDigits_billDigits (n : Nat) : parseDigits (billDigits n) = n := by
  unfold billDigits pad4
  rw [parseDigits_replicate_zero, parseDigits_toDigits]

theorem toDigits_digit_lt (n : Nat) : ∀ d ∈ toDigits n, d < 10 := by
  induction n using Nat.strong_induction_on with
  | _ n ih =>
    rw [toDigits_eq]
    by_cases h : n < 10
    · rw [if_pos h]
      intro d hd
      simp at hd
      omega
    · rw [if_neg h]
      intro d hd
      rw [List.mem_append] at hd
      rcases hd with hd | hd
      · exact ih (n / 10) (Nat.div_lt_self (by omega) (by omega)) d hd
      · simp at hd
        omega

theorem toDigits_length_le : ∀ k n : Nat, n < 10 ^ (k + 1) → (toDigits n).length ≤ k + 1 := by
  intro k
  induction k with
  | zero =>
    intro n h
    rw [toDigits_eq, if_pos (by simpa using h)]
    simp
  | succ k ih =>
    intro n h
    rw [toDigits_eq]
    by_cases h10 : n < 10
    · rw [if_pos h10]
      simp
    · rw [if_neg h10]
      simp only [List.length_append, List.length_cons, List.length_nil]
      have hdiv : n / 10 < 10 ^ (k + 1) := by
        rw [Nat.div_lt_iff_lt_mul (by omega : 0 < 10)]
        calc n < 10 ^ (k + 1 + 1) := h
          _ = 10 ^ (k + 1) * 10 := by ring
      have := ih (n / 10) hdiv
      omega

theorem billDigits_length (n : Nat) (h : n ≤ 9999) : (billDigits n).length = 4 := by
  unfold billDigits pad4
  have hlen : (toDigits n).length ≤ 4 := toDigits_length_le 3 n (by omega)
  simp only [List.length_append, List.length_replicate]
  omega

theorem billDigits_digit_lt (n : Nat) : ∀ d ∈ billDigits n, d < 10 := by
  unfold billDigits pad4
  intro d hd
  rw [List.mem_append] at hd
  rcases hd with hd | hd
  · rw [List.mem_replicate] at hd
    omega
  · exact toDigits_digit_lt n d hd

theorem parseDigits_lt (ds : List Nat) (h : ∀ d ∈ ds, d < 10) :
    parseDigits ds < 10 ^ ds.length := by
  induction ds with
  | nil => simp [parseDigits]
  | cons d ds ih =>
    simp only [List.length_cons]
    rw [parseDigits_cons]
    have hd : d < 10 := h d (by simp)
    have hds := ih (fun x hx => h x (List.mem_cons_of_mem d hx))
    calc d * 10 ^ ds.length + parseDigits ds
        < d * 10 ^ ds.length + 10 ^ ds.length := by omega
      _ = (d + 1) * 10 ^ ds.length := by ring
      _ ≤ 10 * 10 ^ ds.length := Nat.mul_le_mul_right _ (by omega)
      _ = 10 ^ (ds.length + 1) := by ring

theorem lexLt_iff_parseDigits_lt : ∀ as bs : List Nat, as.length = bs.length →
    (∀ d ∈ as, d < 10) → (∀ d ∈ bs, d < 10) →
    (lexLt as bs = true ↔ parseDigits as < parseDigits bs) := by
  intro as
  induction as with
  | nil =>
    intro bs hlen ha hb
    match bs, hlen with
    | [], _ => simp [lexLt]
  | cons a as ih =>
    intro bs hlen ha hb
    match bs, hlen with
    | b :: bs, hlen =>
      have hlen2 : as.length = bs.length := by simpa using hlen
      have ha2 : ∀ d ∈ as, d < 10 := fun d hd => ha d (List.mem_cons_of_mem a hd)
      have hb2 : ∀ d ∈ bs, d < 10 := fun d hd => hb d (List.mem_cons_of_mem b hd)
      have hpa : parseDigits as < 10 ^ bs.length := by
        rw [← hlen2]; exact parseDigits_lt as ha2
      have hpb : parseDigits bs < 10 ^ bs.length := parseDigits_lt bs hb2
      rw [parseDigits_cons, parseDigits_cons, hlen2]
      rcases Nat.lt_trichotomy a b with h | h | h
      · simp only [lexLt, if_pos h, true_iff]
        calc a * 10 ^ bs.length + parseDigits as
            < a * 10 ^ bs.length + 10 ^ bs.length := by omega
          _ = (a + 1) * 10 ^ bs.length := by ring
          _ ≤ b * 10 ^ bs.length := Nat.mul_le_mul_right _ (by omega)
          _ ≤ b * 10 ^ bs.length + parseDigits bs := Nat.le_add_right _ _
      · subst h
        simp only [lexLt, if_neg (lt_irrefl a)]
        rw [Nat.add_lt_add_iff_left]
        exact ih bs hlen2 ha2 hb2
      · have hnlt : ¬ a < b := by omega
        have h1 : b * 10 ^ bs.length + parseDigits bs < (b + 1) * 10 ^ bs.length := by
          have he : (b + 1) * 10 ^ bs.length = b * 10 ^ bs.length + 10 ^ bs.length := by
            ring
          omega
        have h2 : (b + 1) * 10 ^ bs.length ≤ a * 10 ^ bs.length :=
          Nat.mul_le_mul_right _ (by omega)
        have hgt : b * 10 ^ bs.length + parseDigits bs <
            a * 10 ^ bs.length + parseDigits as :=
          lt_of_lt_of_le (lt_of_lt_of_le h1 h2) (Nat.le_add_right _ _)
        simp only [lexLt, if_neg hnlt, if_pos h]
        exact iff_of_false (by simp) (by omega)

theorem foldl_maxStep_billDigits : ∀ (xs : List Nat) (m : Nat), m ≤ 9999 →
    (∀ x ∈ xs, x ≤ 9999) →
    (xs.map billDigits).foldl maxStep (some (billDigits m)) =
      some (billDigits (xs.foldl max m)) := by
  intro xs
  induction xs with
  | nil => intro m hm hxs; rfl
  | cons x xs ih =>
    intro m hm hxs
    have hx : x ≤ 9999 := hxs x (by simp)
    have hxs2 : ∀ y ∈ xs, y ≤ 9999 := fun y hy => hxs y (List.mem_cons_of_mem x hy)
    have hlex : lexLt (billDigits m) (billDigits x) = true ↔ m < x := by
      rw [lexLt_iff_parseDigits_lt _ _
          (by rw [billDigits_length m hm, billDigits_length x hx])
          (billDigits_digit_lt m) (billDigits_digit_lt x),
        parseDigits_billDigits, parseDigits_billDigits]
    simp only [List.map_cons, List.foldl_cons, maxStep]
    by_cases hmx : m < x
    · rw [if_pos (hlex.mpr hmx), ih x hx hxs2]
      rw [Nat.max_eq_right (Nat.le_of_lt hmx)]
    · rw [if_neg (fun hc => hmx (hlex.mp hc)), ih m hm hxs2]
      rw [Nat.max_eq_left (Nat.le_of_not_lt hmx)]

theorem nextSeq_eq_max_add_one : ∀ xs : List Nat, xs ≠ [] → (∀ x ∈ xs, x ≤ 9999) →
    nextSeq (xs.map billDigits) = xs.foldl max 0 + 1 := by
  intro xs hne hb
  match xs with
  | x :: xs =>
    have hx : x ≤ 9999 := hb x (by simp)
    have hxs : ∀ y ∈ xs, y ≤ 9999 := fun y hy => hb y (List.mem_cons_of_mem x hy)
    unfold nextSeq maxByLex
    simp only [List.map_cons, List.foldl_cons, maxStep]
    rw [foldl_maxStep_billDigits xs x hx hxs]
    simp only [parseDigits_billDigits]
    rw [Nat.zero_max]

theorem foldl_max_range (n : Nat) :
    ((List.range n).map (fun i => i + 1)).foldl max 0 = n := by
  induction n with
  | zero => rfl
  | succ n ih =>
    rw [List.range_succ, List.map_append, List.foldl_append, ih]
    simp only [List.map_cons, List.map_nil, List.foldl_cons, List.foldl_nil]
    omega

theorem issueBills_eq : ∀ n : Nat, n ≤ 9999 →
    issueBills n = (List.range n).map (fun i => billDigits (i + 1)) := by
  intro n
  induction n with
  | zero => intro h; rfl
  | succ n ih =>
    intro h
    have hn : n ≤ 9999 := by omega
    rw [issueBills, ih hn]
    cases n with
    | zero => rfl
    | succ m =>
      have hmap : (List.range (m + 1)).map (fun i => billDigits (i + 1)) =
          ((List.range (m + 1)).map (fun i => i + 1)).map billDigits := by
        rw [List.map_map]
        rfl
      have hbound : ∀ y ∈ (List.range (m + 1)).map (fun i => i + 1), y ≤ 9999 := by
        intro y hy
        simp only [List.mem_map, List.mem_range] at hy
        obtain ⟨i, hi, rfl⟩ := hy
        omega
      have hne : (List.range (m + 1)).map (fun i => i + 1) ≠ [] := by simp
      rw [hmap, nextSeq_eq_max_add_one _ hne hbound, foldl_max_range, ← hmap]
      conv_rhs => rw [List.range_succ]
      rw [List.map_append]
      rfl

/-- C5: with the day's bills being zero-padded 4-digit suffix strings (the
only ones the allocator ever creates while at most 9999 bills exist for a
day), the allocated suffix is one greater than the highest existing
suffix (the lexicographic maximum of the padded strings agrees with the
numeric maximum), the first bill of a day is `0001`, and sequential
issuance from an empty day produces suffixes `1, 2, ..., n` — strictly
increasing with no gaps. -/
theorem bill_number_allocation :
    nextSeq [] = 1 ∧
    billDigits (nextSeq []) = [0, 0, 0, 1] ∧
    (∀ xs : List Nat, xs ≠ [] → (∀ x ∈ xs, x ≤ 9999) →
      nextSeq (xs.map billDigits) = xs.foldl max 0 + 1) ∧
    (∀ n : Nat, n ≤ 9999 →
      issueBills n = (List.range n).map (fun i => billDigits (i + 1))) :=
  ⟨rfl, by decide, nextSeq_eq_max_add_one, issueBills_eq⟩

theorem bill_number_allocation_witness :
    nextSeq ([3, 1, 2].map billDigits) = [3, 1, 2].foldl max 0 + 1 ∧
    issueBills 3 = (List.range 3).map (fun i => billDigits (i + 1)) :=
  ⟨bill_number_allocation.2.2.1 [3, 1, 2] (by decide) (by decide),
   bill_number_allocation.2.2.2 3 (by decide)⟩

theorem purchase_cost_allocation_witness :
    ({ suppliers := ["S"], variantIds := ["V1", "V2"],
       products := [{ productVariantId := "V1", supplierId := "S", quantityInStock := 3 },
                    { productVariantId := "V2", supplierId := "S", quantityInStock := 2 }],
       purchases := [{ supplierId := "S", purchasedAt := 0, invoiceNo := none,
                       notes := none, extraCharges := some 100 }],
       purchaseItems := [{ productVariantId := "V1", quantity := 3, unitCost := 10,
                           effectiveUnitCost := 30 },
                         { productVariantId := "V2", quantity := 2, unitCost := 20,
                           effectiveUnitCost := 40 }] } : PurchStore).purchaseItems =
      exPurchStore.purchaseItems ++ exPurchReq.items.map
        (mkPurchaseItem ((exPurchReq.items.map PurchaseItemReq.quantity).sum).toNat
          exPurchReq.extraCharges) :=
  purchase_cost_allocation.1 exPurchStore exPurchReq _ (by with_unfolding_all decide)
